import Mathlib

/-!
# sqlxext: named-parameter helpers over sqlx

A shallow embedding of `sqlxext.go` (package `sqlxext`): the internal binder
`safeBindNamed` and the three public operations `NamedGetContext`,
`NamedSelectContext` and `ExecSQLForRows`.

The package imports `github.com/jmoiron/sqlx` and calls five of its entry
points (`sqlx.Named`, `sqlx.In`, `db.Rebind`, `sqlx.GetContext`,
`sqlx.SelectContext`).  The embedding of the package takes these as a record
`Sqlx DB` of functions, so that what is proved of the package holds whatever
the library does.  Every call made to the library is also recorded, in order,
in a list of `Call`s, so that "is called with", "is not called" and "in this
order" are statements about a value.
-/

namespace Sqlxext

set_option autoImplicit false

/-! ## Data model -/

/-- Go `error` values of the taxonomy the package can surface.  The nil error
is `none : Option GoError`. -/
inductive GoError where
  | BindError (msg : String)
  | NoRowsError
  | ScanError (msg : String)
  | ContextCanceled
  | ContextDeadlineExceeded
  | DriverError (msg : String)
  deriving DecidableEq, Repr

/-- One lexical fragment of a SQL query string: literal text, a named
placeholder `:name`, a generic positional placeholder `?`, or a driver-numbered
placeholder `$n`. -/
inductive Frag where
  | text (s : String)
  | named (name : String)
  | bindvar
  | numbered (n : Nat)
  deriving DecidableEq, Repr

/-- A Go `string` holding a SQL query, read as the sequence of its fragments.
The empty string `""` is `[]`.  The package only passes query strings on. -/
abbrev Query := List Frag

/-- Static kind of the elements of a Go slice type: `interface{}`, a base
(non-struct) type, or a struct type with the given column-mapped fields. -/
inductive ElemKind where
  | iface
  | scalar
  | struct (fields : List String)
  deriving DecidableEq, Repr

/-- Go values that travel through `interface{}`: the nil interface, scalars,
slices, structs and maps keyed by name, and pointers.  `struct []` is the empty
struct value `struct{}{}`; `ptr (slice ElemKind.iface [])` is
`&[]interface{}{}`. -/
inductive GoVal where
  | nil
  | int (n : Int)
  | str (s : String)
  | slice (kind : ElemKind) (elems : List GoVal)
  | struct (fields : List (String × GoVal))
  | map (entries : List (String × GoVal))
  | ptr (target : GoVal)

/-- The Go test `v == nil` on an `interface{}` value. -/
def GoVal.isNil : GoVal → Bool
  | GoVal.nil => true
  | _ => false

/-- A `context.Context`, reduced to what `ctx.Err()` reports. -/
structure Context where
  err : Option GoError

/-- What a call of `sqlx.GetContext` / `sqlx.SelectContext` leaves behind: the
returned error, the database handle afterwards, and the destination
afterwards. -/
structure Outcome (DB : Type) where
  err : Option GoError
  db : DB
  dest : GoVal

/-- The five entry points of the imported library that the package calls.
`Named`, `In` return Go triples `(string, []interface{}, error)`; `Rebind` is
the method `db.Rebind` of the executor handle. -/
structure Sqlx (DB : Type) where
  Named : Query → GoVal → Query × List GoVal × Option GoError
  In : Query → List GoVal → Query × List GoVal × Option GoError
  Rebind : DB → Query → Query
  GetContext : Context → DB → GoVal → Query → List GoVal → Outcome DB
  SelectContext : Context → DB → GoVal → Query → List GoVal → Outcome DB

/-- One call made by the package into the library, with its arguments. -/
inductive Call where
  | Named (query : Query) (arg : GoVal)
  | In (query : Query) (args : List GoVal)
  | Rebind (query : Query)
  | GetContext (dest : GoVal) (query : Query) (args : List GoVal)
  | SelectContext (dest : GoVal) (query : Query) (args : List GoVal)

/-- The call runs a statement on the executor handle. -/
def Call.executes : Call → Bool
  | Call.GetContext _ _ _ => true
  | Call.SelectContext _ _ _ => true
  | _ => false

/-- The call is `db.Rebind`. -/
def Call.isRebind : Call → Bool
  | Call.Rebind _ => true
  | _ => false

/-- The call is `sqlx.Named` with a nil parameter value. -/
def Call.namedWithNil : Call → Bool
  | Call.Named _ arg => arg.isNil
  | _ => false

/-- The call is `sqlx.SelectContext` with a nil destination. -/
def Call.selectIntoNil : Call → Bool
  | Call.SelectContext dest _ _ => dest.isNil
  | _ => false

/-- What a call of a public operation leaves behind: the returned error, the
database handle and the caller's destination afterwards, and the library calls
it made. -/
structure Run (DB : Type) where
  err : Option GoError
  db : DB
  dest : GoVal
  calls : List Call

/-! ## The package -/

/-- `safeBindNamed` (sqlxext.go, lines 57-73): the returned Go triple, and the
library calls made. -/
def safeBindNamed {DB : Type} (L : Sqlx DB) (db : DB) (query : Query) (inParams : GoVal) :
    (Query × List GoVal × Option GoError) × List Call :=
  let inParams := if inParams.isNil then GoVal.struct [] else inParams
  match L.Named query inParams with
  | (_, _, some err) => (([], [], some err), [Call.Named query inParams])
  | (query1, args1, none) =>
    match L.In query1 args1 with
    | (_, _, some err) =>
      (([], [], some err), [Call.Named query inParams, Call.In query1 args1])
    | (query2, args2, none) =>
      ((L.Rebind db query2, args2, none),
        [Call.Named query inParams, Call.In query1 args1, Call.Rebind query2])

/-- `NamedGetContext` (sqlxext.go, lines 13-24). -/
def NamedGetContext {DB : Type} (L : Sqlx DB) (ctx : Context) (db : DB)
    (dest : GoVal) (query : Query) (inParams : GoVal) : Run DB :=
  match safeBindNamed L db query inParams with
  | ((_, _, some err), calls) => ⟨some err, db, dest, calls⟩
  | ((query, args, none), calls) =>
    let r := L.GetContext ctx db dest query args
    ⟨r.err, r.db, r.dest, calls ++ [Call.GetContext dest query args]⟩

/-- `NamedSelectContext` (sqlxext.go, lines 28-42).  When `dest` is nil the
library writes into a local `&[]interface{}{}` that the caller never sees, so
the caller's destination stays nil. -/
def NamedSelectContext {DB : Type} (L : Sqlx DB) (ctx : Context) (db : DB)
    (dest : GoVal) (query : Query) (inParams : GoVal) : Run DB :=
  match safeBindNamed L db query inParams with
  | ((_, _, some err), calls) => ⟨some err, db, dest, calls⟩
  | ((query, args, none), calls) =>
    let dest1 := if dest.isNil then GoVal.ptr (GoVal.slice ElemKind.iface []) else dest
    let r := L.SelectContext ctx db dest1 query args
    ⟨r.err, r.db, if dest.isNil then dest else r.dest,
      calls ++ [Call.SelectContext dest1 query args]⟩

/-- `ExecSQLForRows` (sqlxext.go, lines 47-53). -/
def ExecSQLForRows {DB : Type} (L : Sqlx DB) (ctx : Context) (db : DB)
    (dest : GoVal) (query : Query) (inParams : GoVal) : Run DB :=
  NamedSelectContext L ctx db dest query inParams

/-! ## The imported library

`github.com/jmoiron/sqlx` is imported by the package and is not part of it.
Statements that depend on what the library itself computes are made about the
record `sqlx.library` below, over database handles `DB` that carry the answer
of the database to every bound statement.
-/

/-- Placeholder convention of a driver: `?` or `$1, $2, ...`. -/
inductive BindType where
  | question
  | dollar
  deriving DecidableEq, Repr

/-- The rows a statement returns: column names, and one value per column in
every row. -/
structure ResultSet where
  columns : List String
  rows : List (List GoVal)

/-- A database handle: the driver convention, the answer of the database to
every bound statement, the scan of one row of an answer, and the statements
executed on the handle so far.

`scan v columns row` is what scanning `row` into a destination that holds `v`
leaves in the destination, and the error of the scan if it fails.  It stands
for the row scan of `database/sql` (the conversion of each column value into
the Go type of the destination), which depends on Go types that the values
here do not carry and is not modelled: what is stated of every handle holds
whatever that conversion does. -/
structure DB where
  bindType : BindType
  run : Query → List GoVal → Except GoError ResultSet
  scan : GoVal → List String → List GoVal → GoVal × Option GoError
  executed : List (Query × List GoVal)

/-- The parameter source is a mapping or a struct. -/
def GoVal.isRecord : GoVal → Bool
  | GoVal.struct _ => true
  | GoVal.map _ => true
  | _ => false

/-- The value a mapping or struct holds under a name. -/
def GoVal.lookup (name : String) : GoVal → Option GoVal
  | GoVal.struct fields => fields.lookup name
  | GoVal.map entries => entries.lookup name
  | _ => none

/-- The value is a sequence with no element. -/
def GoVal.isEmptySlice : GoVal → Bool
  | GoVal.slice _ [] => true
  | _ => false

/-- The scalar values an argument stands for after list expansion: the
elements of a sequence, the value itself otherwise. -/
def GoVal.expand : GoVal → List GoVal
  | GoVal.slice _ elems => elems
  | v => [v]

/-- The fragment is a positional placeholder, generic or driver-numbered. -/
def Frag.isPositional : Frag → Bool
  | Frag.bindvar => true
  | Frag.numbered _ => true
  | _ => false

/-- The fragment is a named placeholder. -/
def Frag.isNamed : Frag → Bool
  | Frag.named _ => true
  | _ => false

/-- The fragment is literal text or a named placeholder. -/
def Frag.isTextOrNamed : Frag → Bool
  | Frag.text _ => true
  | Frag.named _ => true
  | _ => false

/-- Number of positional placeholders of a query. -/
def positionalCount (q : Query) : Nat :=
  q.countP Frag.isPositional

namespace sqlx

/-- Modelled from the spec: part of `sqlx.Named` (section 4.1, step 2).  The
values of the named placeholders of a query, in placeholder order, or the
`BindError` for the first name the source does not hold. -/
def namedArgs (src : GoVal) : Query → Except GoError (List GoVal)
  | [] => Except.ok []
  | Frag.named name :: rest =>
    match src.lookup name with
    | none => Except.error (GoError.BindError ("could not find name " ++ name))
    | some v =>
      match namedArgs src rest with
      | Except.error e => Except.error e
      | Except.ok vs => Except.ok (v :: vs)
  | _ :: rest => namedArgs src rest

/-- Modelled from the spec: part of `sqlx.Named` (section 4.1, step 2).  Every
named placeholder rewritten into the generic positional one. -/
def toBindvars : Query → Query
  | [] => []
  | Frag.named _ :: rest => Frag.bindvar :: toBindvars rest
  | f :: rest => f :: toBindvars rest

/-- Modelled from the spec: `sqlx.Named` is a function of the imported library,
absent from the sources.  Section 4.1, step 2: every named placeholder becomes
a positional placeholder, its value is taken from the parameter source by name
and the values are collected in placeholder order; `BindError` when a name is
not in the source or the source is neither a mapping nor a struct. -/
def Named (query : Query) (arg : GoVal) : Query × List GoVal × Option GoError :=
  if arg.isRecord then
    match namedArgs arg query with
    | Except.error e => ([], [], some e)
    | Except.ok args => (toBindvars query, args, none)
  else ([], [], some (GoError.BindError "unsupported parameter source"))

/-- Modelled from the spec: part of `sqlx.In` (section 4.1, step 3).  The `n`
placeholders `?, ?, ..., ?` that stand for a sequence of `n` elements. -/
def bindvars : Nat → Query
  | 0 => []
  | 1 => [Frag.bindvar]
  | n + 2 => Frag.bindvar :: Frag.text ", " :: bindvars (n + 1)

/-- Modelled from the spec: part of `sqlx.In` (section 4.1, step 3).  Each
positional placeholder takes the next argument; a sequence argument of `n`
elements becomes `n` placeholders and `n` arguments.  `none` when the
placeholders and the arguments do not pair up. -/
def expandIn : Query → List GoVal → Option (Query × List GoVal)
  | [], [] => some ([], [])
  | [], _ :: _ => none
  | Frag.bindvar :: _, [] => none
  | Frag.bindvar :: rest, a :: args =>
    match expandIn rest args with
    | none => none
    | some (q, vs) => some (bindvars a.expand.length ++ q, a.expand ++ vs)
  | f :: rest, args =>
    match expandIn rest args with
    | none => none
    | some (q, vs) => some (f :: q, vs)

/-- Modelled from the spec: `sqlx.In` is a function of the imported library,
absent from the sources.  Section 4.1, step 3: every argument that is a
sequence is expanded into N positional placeholders and N arguments, relative
order preserved; `BindError` when a sequence has zero elements (and when
placeholders and arguments do not pair up). -/
def In (query : Query) (args : List GoVal) : Query × List GoVal × Option GoError :=
  if args.any GoVal.isEmptySlice then
    ([], [], some (GoError.BindError "empty slice passed to in query"))
  else
    match expandIn query args with
    | none => ([], [], some (GoError.BindError "number of bindVars does not match arguments"))
    | some (q, vs) => (q, vs, none)

/-- Modelled from the spec: part of `Rebind` (section 4.1, step 4).  The generic
placeholders numbered from `i + 1` on, left to right. -/
def numberFrom : Nat → Query → Query
  | _, [] => []
  | i, Frag.bindvar :: rest => Frag.numbered (i + 1) :: numberFrom (i + 1) rest
  | i, f :: rest => f :: numberFrom i rest

/-- Modelled from the spec: `Rebind` is a function of the imported library,
absent from the sources.  Section 4.1, step 4: the positional placeholders are
rewritten into the native form of the driver, `?` or `$1, $2, ...`. -/
def Rebind (bindType : BindType) (query : Query) : Query :=
  match bindType with
  | BindType.question => query
  | BindType.dollar => numberFrom 0 query

end sqlx

/-! ### Row scanning

The definitions of this section model how the imported library executes a bound
statement and scans its rows, after the documented behaviour of the library.
None of it is code of the package. -/

/-- Static kind of a value, as the reflection of the library sees it. -/
def GoVal.kind : GoVal → ElemKind
  | GoVal.struct fields => ElemKind.struct (fields.map Prod.fst)
  | GoVal.nil => ElemKind.iface
  | _ => ElemKind.scalar

/-- The library scans a single column into every kind but a struct with
fields. -/
def ElemKind.isScannable : ElemKind → Bool
  | ElemKind.struct (_ :: _) => false
  | _ => true

/-- The zero value a fresh element of the kind starts from. -/
def ElemKind.zero : ElemKind → GoVal
  | ElemKind.struct fields => GoVal.struct (fields.map fun f => (f, GoVal.nil))
  | _ => GoVal.nil

/-- The check the library makes on the columns of a result before it reads a
row: a scannable destination takes at most one column, a struct destination
needs a field for every column. -/
def shapeError (kind : ElemKind) (columns : List String) : Option GoError :=
  match kind with
  | ElemKind.struct (f :: fs) =>
    match columns.find? (fun c => !(f :: fs).contains c) with
    | some c => some (GoError.ScanError ("missing destination name " ++ c))
    | none => none
  | _ =>
    if columns.length > 1 then
      some (GoError.ScanError "non-struct dest type with >1 columns")
    else none

/-- Every row scanned into a fresh element of the kind, up to the first row
whose scan fails; the element of a failed scan is not kept. -/
def scanAll (scan : GoVal → List String → List GoVal → GoVal × Option GoError)
    (kind : ElemKind) (columns : List String) : List (List GoVal) → List GoVal × Option GoError
  | [] => ([], none)
  | row :: rows =>
    match scan kind.zero columns row with
    | (_, some e) => ([], some e)
    | (v, none) =>
      (v :: (scanAll scan kind columns rows).1, (scanAll scan kind columns rows).2)

namespace sqlx

/-- Model of `sqlx.GetContext`, a function of the imported library, absent
from the sources, after the documented behaviour of the library
(`QueryRowxContext` followed by the scan of `database/sql` rows): the
statement is executed; the destination must be a pointer whose shape fits the
columns; an empty result is `NoRowsError`; otherwise the first row is scanned
into the destination, with the scan of the handle, and the remaining rows are
discarded. -/
def GetContext (ctx : Context) (db : DB) (dest : GoVal) (query : Query) (args : List GoVal) :
    Outcome DB :=
  match ctx.err with
  | some e => ⟨some e, db, dest⟩
  | none =>
    let db1 : DB := ⟨db.bindType, db.run, db.scan, db.executed ++ [(query, args)]⟩
    match db.run query args with
    | Except.error e => ⟨some e, db1, dest⟩
    | Except.ok rs =>
      match dest with
      | GoVal.ptr v =>
        match shapeError v.kind rs.columns with
        | some e => ⟨some e, db1, dest⟩
        | none =>
          match rs.rows with
          | [] => ⟨some GoError.NoRowsError, db1, dest⟩
          | row :: _ =>
            ⟨(db.scan v rs.columns row).2, db1, GoVal.ptr (db.scan v rs.columns row).1⟩
      | _ => ⟨some (GoError.ScanError "must pass a pointer, not a value"), db1, dest⟩

/-- Model of `sqlx.SelectContext`, a function of the imported library, absent
from the sources, after the documented behaviour of the library
(`QueryxContext` followed by a scan of all rows): the statement is executed;
the destination must be a pointer to a slice, which is emptied; the shape of
the element kind must fit the columns; every row is scanned, with the scan of
the handle, into a fresh element appended to the slice. -/
def SelectContext (ctx : Context) (db : DB) (dest : GoVal) (query : Query) (args : List GoVal) :
    Outcome DB :=
  match ctx.err with
  | some e => ⟨some e, db, dest⟩
  | none =>
    let db1 : DB := ⟨db.bindType, db.run, db.scan, db.executed ++ [(query, args)]⟩
    match db.run query args with
    | Except.error e => ⟨some e, db1, dest⟩
    | Except.ok rs =>
      match dest with
      | GoVal.ptr (GoVal.slice kind _) =>
        match shapeError kind rs.columns with
        | some e => ⟨some e, db1, GoVal.ptr (GoVal.slice kind [])⟩
        | none =>
          ⟨(scanAll db.scan kind rs.columns rs.rows).2, db1,
            GoVal.ptr (GoVal.slice kind (scanAll db.scan kind rs.columns rs.rows).1)⟩
      | GoVal.ptr _ => ⟨some (GoError.ScanError "expected slice"), db1, dest⟩
      | _ => ⟨some (GoError.ScanError "must pass a pointer, not a value"), db1, dest⟩

/-- The library over the database handles `DB`: `db.Rebind` rewrites for the
driver of the handle. -/
def library : Sqlx DB where
  Named := Named
  In := In
  Rebind := fun db query => Rebind db.bindType query
  GetContext := GetContext
  SelectContext := SelectContext

end sqlx

/-! ## Vocabulary of the statements -/

/-- The parameter source `sqlx.Named` receives: the empty struct for nil, the
source itself otherwise. -/
def orEmptyStruct (inParams : GoVal) : GoVal :=
  if inParams.isNil then GoVal.struct [] else inParams

/-- The throwaway destination `&[]interface{}{}`. -/
def throwaway : GoVal :=
  GoVal.ptr (GoVal.slice ElemKind.iface [])

/-- Every named placeholder of the query has a value in the source. -/
def namesSupplied (src : GoVal) : Query → Bool
  | [] => true
  | Frag.named name :: rest => (src.lookup name).isSome && namesSupplied src rest
  | _ :: rest => namesSupplied src rest

/-- Some named placeholder of the query is bound to a sequence without
elements. -/
def hasEmptySequence (src : GoVal) : Query → Bool
  | [] => false
  | Frag.named name :: rest =>
    (match src.lookup name with
      | some v => v.isEmptySlice
      | none => false) || hasEmptySequence src rest
  | _ :: rest => hasEmptySequence src rest

/-- Number of scalar values after list expansion: one for each placeholder
occurrence bound to a scalar, the element count for each one bound to a
sequence. -/
def scalarCount (src : GoVal) : Query → Nat
  | [] => 0
  | Frag.named name :: rest =>
    (match src.lookup name with
      | some (GoVal.slice _ elems) => elems.length
      | some _ => 1
      | none => 0) + scalarCount src rest
  | _ :: rest => scalarCount src rest

/-- The values bound to the named placeholders of a query, in placeholder
order. -/
def namedValues (src : GoVal) : Query → List GoVal
  | [] => []
  | Frag.named name :: rest =>
    match src.lookup name with
    | some v => v :: namedValues src rest
    | none => namedValues src rest
  | _ :: rest => namedValues src rest

/-- The scalar values bound to the named placeholders of a query after list
expansion, in placeholder order. -/
def boundArgs (src : GoVal) : Query → List GoVal
  | [] => []
  | Frag.named name :: rest =>
    match src.lookup name with
    | some v => v.expand ++ boundArgs src rest
    | none => boundArgs src rest
  | _ :: rest => boundArgs src rest

/-- The query with every named placeholder replaced by as many generic
positional placeholders as its value has scalars. -/
def boundQuery (src : GoVal) : Query → Query
  | [] => []
  | Frag.named name :: rest =>
    match src.lookup name with
    | some v => sqlx.bindvars v.expand.length ++ boundQuery src rest
    | none => Frag.named name :: boundQuery src rest
  | f :: rest => f :: boundQuery src rest

/-! ## Sample inputs -/

/-- `SELECT name FROM users WHERE id IN (:ids)`. -/
def sampleQuery : Query :=
  [Frag.text "SELECT name FROM users WHERE id IN (", Frag.named "ids", Frag.text ")"]

/-- `SELECT id, name FROM users WHERE id IN (:ids)`. -/
def sampleQueryTwo : Query :=
  [Frag.text "SELECT id, name FROM users WHERE id IN (", Frag.named "ids", Frag.text ")"]

/-- `UPDATE users SET name = :name WHERE id = :id`. -/
def sampleUpdate : Query :=
  [Frag.text "UPDATE users SET name = ", Frag.named "name", Frag.text " WHERE id = ",
    Frag.named "id"]

/-- A mapping with `ids` bound to the three-element sequence `[4, 5, 6]`. -/
def sampleParams : GoVal :=
  GoVal.map [("ids", GoVal.slice ElemKind.scalar [GoVal.int 4, GoVal.int 5, GoVal.int 6])]

/-- A mapping with `ids` bound to a sequence without elements. -/
def emptyIdsParams : GoVal :=
  GoVal.map [("ids", GoVal.slice ElemKind.scalar [])]

/-- A mapping with `name` and `id` bound to scalars. -/
def updateParams : GoVal :=
  GoVal.map [("name", GoVal.str "ann"), ("id", GoVal.int 4)]

/-- A live context. -/
def liveContext : Context := ⟨none⟩

/-- The scan of the sample handles: a single column is stored as it is into a
destination of type `interface{}`, and a string column into a string
destination, as `database/sql` does; the sample statements scan into nothing
else, and the sample handles refuse every other scan. -/
def sampleScan (v : GoVal) (_columns : List String) (row : List GoVal) :
    GoVal × Option GoError :=
  match v, row with
  | GoVal.nil, [x] => (x, none)
  | GoVal.str _, [GoVal.str s] => (GoVal.str s, none)
  | _, _ => (v, some (GoError.ScanError "unsupported Scan"))

/-- A handle on a `$n` driver whose database answers every statement with the
given result set and on which nothing was executed yet. -/
def sampleDB (rs : ResultSet) : DB :=
  ⟨BindType.dollar, fun _ _ => Except.ok rs, sampleScan, []⟩

/-- No column, no row: what an `UPDATE` returns. -/
def noRows : ResultSet := ⟨[], []⟩

/-- One column `name`, two rows. -/
def twoRows : ResultSet := ⟨["name"], [[GoVal.str "ann"], [GoVal.str "bob"]]⟩

/-- Two columns `id` and `name`, no row. -/
def noRowsTwoColumns : ResultSet := ⟨["id", "name"], []⟩

/-- Two columns `id` and `name`, one row. -/
def twoColumns : ResultSet := ⟨["id", "name"], [[GoVal.int 4, GoVal.str "ann"]]⟩

/-! ## The package, whatever the library does -/

theorem orEmptyStruct_isNil (inParams : GoVal) : (orEmptyStruct inParams).isNil = false := by
  unfold orEmptyStruct
  cases inParams <;> simp [GoVal.isNil]

theorem safeBindNamed_eq_orEmptyStruct {DB : Type} (L : Sqlx DB) (db : DB) (query : Query)
    (inParams : GoVal) :
    safeBindNamed L db query inParams = safeBindNamed L db query (orEmptyStruct inParams) := by
  cases inParams <;> rfl

/-- The three shapes of a binder run, by the outcome of `Named` and `In`. -/
theorem safeBindNamed_cases {DB : Type} (L : Sqlx DB) (db : DB) (query : Query)
    (inParams : GoVal) :
    (∃ e, (L.Named query (orEmptyStruct inParams)).2.2 = some e ∧
        safeBindNamed L db query inParams =
          (([], [], some e), [Call.Named query (orEmptyStruct inParams)])) ∨
    (∃ q1 a1 e, L.Named query (orEmptyStruct inParams) = (q1, a1, none) ∧
        (L.In q1 a1).2.2 = some e ∧
        safeBindNamed L db query inParams =
          (([], [], some e), [Call.Named query (orEmptyStruct inParams), Call.In q1 a1])) ∨
    (∃ q1 a1 q2 a2, L.Named query (orEmptyStruct inParams) = (q1, a1, none) ∧
        L.In q1 a1 = (q2, a2, none) ∧
        safeBindNamed L db query inParams =
          ((L.Rebind db q2, a2, none),
            [Call.Named query (orEmptyStruct inParams), Call.In q1 a1, Call.Rebind q2])) := by
  unfold safeBindNamed
  simp only []
  change _ ∨ _ ∨ _
  rcases hN : L.Named query (orEmptyStruct inParams) with ⟨q1, a1, e1⟩
  have hN0 : L.Named query (if inParams.isNil = true then GoVal.struct [] else inParams)
      = (q1, a1, e1) := hN
  cases e1 with
  | some e =>
    left
    exact ⟨e, rfl, by simp only [hN0]; rfl⟩
  | none =>
    right
    rcases hI : L.In q1 a1 with ⟨q2, a2, e2⟩
    cases e2 with
    | some e =>
      left
      exact ⟨q1, a1, e, rfl, by rw [hI], by simp only [hN0, hI]; rfl⟩
    | none =>
      right
      exact ⟨q1, a1, q2, a2, rfl, hI, by simp only [hN0, hI]; rfl⟩

/-- The binder calls neither `db.Rebind` nor an executing function when it
returns an error, and never an executing function. -/
theorem safeBindNamed_calls {DB : Type} (L : Sqlx DB) (db : DB) (query : Query)
    (inParams : GoVal) :
    (∀ c ∈ (safeBindNamed L db query inParams).2,
      c.executes = false ∧ c.namedWithNil = false ∧ c.selectIntoNil = false) ∧
    ((safeBindNamed L db query inParams).1.2.2 ≠ none →
      ∀ c ∈ (safeBindNamed L db query inParams).2, c.isRebind = false) := by
  have hnil := orEmptyStruct_isNil inParams
  rcases safeBindNamed_cases L db query inParams with
    ⟨e, _, h⟩ | ⟨q1, a1, e, _, _, h⟩ | ⟨q1, a1, q2, a2, _, _, h⟩ <;>
  · rw [h]
    simp [Call.executes, Call.namedWithNil, Call.selectIntoNil, Call.isRebind, hnil]

/-- C1: for every context, handle, destination (nil or not), query and
parameter source, `ExecSQLForRows` returns exactly what `NamedSelectContext`
returns: the same error, the same destination and database handle afterwards,
and the same calls into the library. -/
theorem ExecSQLForRows_eq_NamedSelectContext {DB : Type} (L : Sqlx DB) (ctx : Context)
    (db : DB) (dest : GoVal) (query : Query) (inParams : GoVal) :
    ExecSQLForRows L ctx db dest query inParams
      = NamedSelectContext L ctx db dest query inParams :=
  rfl

/-- C2: a nil parameter source is bound exactly as the empty struct is:
`safeBindNamed` gives the same result for both, no call of `sqlx.Named` made by
the binder or by a public operation (whatever the parameter source) has a nil
parameter value, and each public operation behaves with a nil parameter source
exactly as with the empty struct. -/
theorem nil_inParams_as_empty_struct {DB : Type} (L : Sqlx DB) (ctx : Context) (db : DB)
    (dest : GoVal) (query : Query) :
    safeBindNamed L db query GoVal.nil = safeBindNamed L db query (GoVal.struct []) ∧
    (∀ inParams : GoVal,
      (∀ c ∈ (safeBindNamed L db query inParams).2, c.namedWithNil = false) ∧
      (∀ c ∈ (NamedGetContext L ctx db dest query inParams).calls, c.namedWithNil = false) ∧
      (∀ c ∈ (NamedSelectContext L ctx db dest query inParams).calls, c.namedWithNil = false) ∧
      (∀ c ∈ (ExecSQLForRows L ctx db dest query inParams).calls, c.namedWithNil = false)) ∧
    NamedGetContext L ctx db dest query GoVal.nil
      = NamedGetContext L ctx db dest query (GoVal.struct []) ∧
    NamedSelectContext L ctx db dest query GoVal.nil
      = NamedSelectContext L ctx db dest query (GoVal.struct []) ∧
    ExecSQLForRows L ctx db dest query GoVal.nil
      = ExecSQLForRows L ctx db dest query (GoVal.struct []) := by
  refine ⟨rfl, ?_, rfl, rfl, rfl⟩
  intro inParams
  have hb := (safeBindNamed_calls L db query inParams).1
  have hsel : ∀ c ∈ (NamedSelectContext L ctx db dest query inParams).calls,
      c.namedWithNil = false := by
    unfold NamedSelectContext
    rcases hs : safeBindNamed L db query inParams with ⟨⟨q, a, e⟩, calls⟩
    rw [hs] at hb
    cases e with
    | some e => exact fun c hc => (hb c hc).2.1
    | none =>
      intro c hc
      simp only [List.mem_append, List.mem_singleton] at hc
      rcases hc with hc | hc
      · exact (hb c hc).2.1
      · rw [hc]; rfl
  refine ⟨fun c hc => (hb c hc).2.1, ?_, hsel, hsel⟩
  unfold NamedGetContext
  rcases hs : safeBindNamed L db query inParams with ⟨⟨q, a, e⟩, calls⟩
  rw [hs] at hb
  cases e with
  | some e => exact fun c hc => (hb c hc).2.1
  | none =>
    intro c hc
    simp only [List.mem_append, List.mem_singleton] at hc
    rcases hc with hc | hc
    · exact (hb c hc).2.1
    · rw [hc]; rfl

/-- When binding succeeds, `NamedSelectContext` with a nil destination calls
`sqlx.SelectContext` once, after the binder, on the bound query and arguments
with a pointer to a fresh empty `[]interface{}` as destination; no call of
`sqlx.SelectContext` receives a nil destination; the error returned and the
handle afterwards are those of that call; and the destination of the caller
stays nil. -/
theorem NamedSelectContext_nil_dest {DB : Type} (L : Sqlx DB) (ctx : Context) (db : DB)
    (query : Query) (inParams : GoVal) (q : Query) (args : List GoVal) (calls : List Call)
    (hbind : safeBindNamed L db query inParams = ((q, args, none), calls)) :
    (NamedSelectContext L ctx db GoVal.nil query inParams).calls
      = calls ++ [Call.SelectContext throwaway q args] ∧
    throwaway.isNil = false ∧
    (∀ c ∈ (NamedSelectContext L ctx db GoVal.nil query inParams).calls,
      c.selectIntoNil = false) ∧
    (NamedSelectContext L ctx db GoVal.nil query inParams).err
      = (L.SelectContext ctx db throwaway q args).err ∧
    (NamedSelectContext L ctx db GoVal.nil query inParams).db
      = (L.SelectContext ctx db throwaway q args).db ∧
    (NamedSelectContext L ctx db GoVal.nil query inParams).dest = GoVal.nil := by
  have hb := (safeBindNamed_calls L db query inParams).1
  rw [hbind] at hb
  have h : NamedSelectContext L ctx db GoVal.nil query inParams
      = ⟨(L.SelectContext ctx db throwaway q args).err,
          (L.SelectContext ctx db throwaway q args).db, GoVal.nil,
          calls ++ [Call.SelectContext throwaway q args]⟩ := by
    unfold NamedSelectContext
    rw [hbind]
    rfl
  rw [h]
  refine ⟨rfl, rfl, ?_, rfl, rfl, rfl⟩
  intro c hc
  simp only [List.mem_append, List.mem_singleton] at hc
  rcases hc with hc | hc
  · exact (hb c hc).2.2
  · rw [hc]; rfl

/-- When the binder returns an error, each public operation returns it, leaves
the handle and the destination as they were and makes no further call. -/
theorem ops_of_bind_error {DB : Type} (L : Sqlx DB) (ctx : Context) (db : DB)
    (dest : GoVal) (query : Query) (inParams : GoVal) (e : GoError)
    (hres : (safeBindNamed L db query inParams).1 = ([], [], some e)) :
    NamedGetContext L ctx db dest query inParams
      = ⟨some e, db, dest, (safeBindNamed L db query inParams).2⟩ ∧
    NamedSelectContext L ctx db dest query inParams
      = ⟨some e, db, dest, (safeBindNamed L db query inParams).2⟩ ∧
    ExecSQLForRows L ctx db dest query inParams
      = ⟨some e, db, dest, (safeBindNamed L db query inParams).2⟩ := by
  have hsel : NamedSelectContext L ctx db dest query inParams
      = ⟨some e, db, dest, (safeBindNamed L db query inParams).2⟩ := by
    unfold NamedSelectContext
    rcases hs : safeBindNamed L db query inParams with ⟨⟨q, a, e1⟩, calls⟩
    rw [hs] at hres
    cases hres
    rfl
  refine ⟨?_, hsel, hsel⟩
  unfold NamedGetContext
  rcases hs : safeBindNamed L db query inParams with ⟨⟨q, a, e1⟩, calls⟩
  rw [hs] at hres
  cases hres
  rfl

/-- C4: when `sqlx.Named` fails with `e`, or succeeds and `sqlx.In` then fails
with `e`, `safeBindNamed` returns `("", nil, e)` and the three public
operations return exactly `e`, leave the handle and the destination as they
were, and no call of `db.Rebind`, `sqlx.GetContext` or `sqlx.SelectContext` is
made. -/
theorem bind_error_propagates {DB : Type} (L : Sqlx DB) (ctx : Context) (db : DB)
    (dest : GoVal) (query : Query) (inParams : GoVal) (e : GoError)
    (hfail : (L.Named query (orEmptyStruct inParams)).2.2 = some e ∨
      ((L.Named query (orEmptyStruct inParams)).2.2 = none ∧
        (L.In (L.Named query (orEmptyStruct inParams)).1
          (L.Named query (orEmptyStruct inParams)).2.1).2.2 = some e)) :
    (safeBindNamed L db query inParams).1 = ([], [], some e) ∧
    (∀ c ∈ (safeBindNamed L db query inParams).2, c.isRebind = false ∧ c.executes = false) ∧
    (∀ r ∈ [NamedGetContext L ctx db dest query inParams,
        NamedSelectContext L ctx db dest query inParams,
        ExecSQLForRows L ctx db dest query inParams],
      r.err = some e ∧ r.db = db ∧ r.dest = dest ∧
        ∀ c ∈ r.calls, c.isRebind = false ∧ c.executes = false) := by
  have hc1 := safeBindNamed_calls L db query inParams
  have hres : (safeBindNamed L db query inParams).1 = ([], [], some e) := by
    rcases safeBindNamed_cases L db query inParams with
      ⟨e1, h1, h⟩ | ⟨q1, a1, e1, h1, h2, h⟩ | ⟨q1, a1, q2, a2, h1, h2, h⟩
    · rcases hfail with h0 | ⟨h0, _⟩
      · rw [h1] at h0
        rw [h, ← Option.some.inj h0]
      · rw [h1] at h0
        exact absurd h0 (by simp)
    · rcases hfail with h0 | ⟨_, h0⟩
      · rw [h1] at h0
        exact absurd h0 (by simp)
      · rw [h1] at h0
        simp only [] at h0
        rw [h2] at h0
        rw [h, ← Option.some.inj h0]
    · rcases hfail with h0 | ⟨_, h0⟩
      · rw [h1] at h0
        exact absurd h0 (by simp)
      · rw [h1] at h0
        simp only [] at h0
        rw [h2] at h0
        exact absurd h0 (by simp)
  have hcalls : ∀ c ∈ (safeBindNamed L db query inParams).2,
      c.isRebind = false ∧ c.executes = false := fun c hc =>
    ⟨hc1.2 (by rw [hres]; simp) c hc, (hc1.1 c hc).1⟩
  obtain ⟨hget, hsel, hexec⟩ := ops_of_bind_error L ctx db dest query inParams e hres
  refine ⟨hres, hcalls, ?_⟩
  intro r hr
  simp only [List.mem_cons, List.mem_singleton, List.not_mem_nil, or_false] at hr
  rcases hr with hr | hr | hr
  · rw [hr, hget]; exact ⟨rfl, rfl, rfl, hcalls⟩
  · rw [hr, hsel]; exact ⟨rfl, rfl, rfl, hcalls⟩
  · rw [hr, hexec]; exact ⟨rfl, rfl, rfl, hcalls⟩

/-- The parameter source of the sample fails in `Named`: the empty struct that
stands for nil has no `ids`. -/
theorem bind_error_propagates_witness :
    (sqlx.library.Named sampleQuery (orEmptyStruct GoVal.nil)).2.2
      = some (GoError.BindError "could not find name ids") ∧
    (safeBindNamed sqlx.library (sampleDB twoRows) sampleQuery GoVal.nil).1
      = ([], [], some (GoError.BindError "could not find name ids")) :=
  ⟨rfl, (bind_error_propagates sqlx.library liveContext (sampleDB twoRows) GoVal.nil
    sampleQuery GoVal.nil (GoError.BindError "could not find name ids") (Or.inl rfl)).1⟩

/-- C5: when `sqlx.Named` succeeds on the query and the nil-substituted
parameter source with `(q1, a1)` and `sqlx.In` succeeds on `(q1, a1)` with
`(q2, a2)`, `safeBindNamed` returns `(db.Rebind(q2), a2, nil)` and makes
exactly the calls `Named`, `In`, `Rebind` in this order, `Rebind` once and on
the query `In` produced. -/
theorem safeBindNamed_success {DB : Type} (L : Sqlx DB) (db : DB) (query : Query)
    (inParams : GoVal) (q1 q2 : Query) (a1 a2 : List GoVal)
    (hNamed : L.Named query (orEmptyStruct inParams) = (q1, a1, none))
    (hIn : L.In q1 a1 = (q2, a2, none)) :
    safeBindNamed L db query inParams =
      ((L.Rebind db q2, a2, none),
        [Call.Named query (orEmptyStruct inParams), Call.In q1 a1, Call.Rebind q2]) := by
  rcases safeBindNamed_cases L db query inParams with
    ⟨e1, h1, _⟩ | ⟨q1', a1', e1, h1, h2, _⟩ | ⟨q1', a1', q2', a2', h1, h2, h⟩
  · rw [hNamed] at h1
    exact absurd h1 (by simp)
  · rw [hNamed] at h1
    cases h1
    rw [hIn] at h2
    exact absurd h2 (by simp)
  · rw [hNamed] at h1
    cases h1
    rw [hIn] at h2
    cases h2
    exact h

/-- The sample query with `ids` bound to `[4, 5, 6]`, on a `$n` driver. -/
theorem safeBindNamed_success_witness :
    safeBindNamed sqlx.library (sampleDB twoRows) sampleQuery sampleParams =
      (([Frag.text "SELECT name FROM users WHERE id IN (", Frag.numbered 1, Frag.text ", ",
          Frag.numbered 2, Frag.text ", ", Frag.numbered 3, Frag.text ")"],
        [GoVal.int 4, GoVal.int 5, GoVal.int 6], none),
       [Call.Named sampleQuery sampleParams,
        Call.In [Frag.text "SELECT name FROM users WHERE id IN (", Frag.bindvar, Frag.text ")"]
          [GoVal.slice ElemKind.scalar [GoVal.int 4, GoVal.int 5, GoVal.int 6]],
        Call.Rebind [Frag.text "SELECT name FROM users WHERE id IN (", Frag.bindvar,
          Frag.text ", ", Frag.bindvar, Frag.text ", ", Frag.bindvar, Frag.text ")"]]) :=
  safeBindNamed_success sqlx.library (sampleDB twoRows) sampleQuery sampleParams
    [Frag.text "SELECT name FROM users WHERE id IN (", Frag.bindvar, Frag.text ")"]
    [Frag.text "SELECT name FROM users WHERE id IN (", Frag.bindvar, Frag.text ", ",
      Frag.bindvar, Frag.text ", ", Frag.bindvar, Frag.text ")"]
    [GoVal.slice ElemKind.scalar [GoVal.int 4, GoVal.int 5, GoVal.int 6]]
    [GoVal.int 4, GoVal.int 5, GoVal.int 6] rfl rfl

/-! ## The binder over the library -/

theorem namedArgs_eq (src : GoVal) (q : Query) (h : namesSupplied src q = true) :
    sqlx.namedArgs src q = Except.ok (namedValues src q) := by
  induction q with
  | nil => rfl
  | cons f rest ih =>
    cases f with
    | named name =>
      simp only [namesSupplied, Bool.and_eq_true] at h
      rcases hl : src.lookup name with _ | v
      · rw [hl] at h; simp at h
      · simp only [sqlx.namedArgs, namedValues, hl, ih h.2]
    | text s => exact ih (by simpa [namesSupplied] using h)
    | bindvar => exact ih (by simpa [namesSupplied] using h)
    | numbered n => exact ih (by simpa [namesSupplied] using h)

theorem Named_eq (src : GoVal) (q : Query) (hrec : src.isRecord = true)
    (h : namesSupplied src q = true) :
    sqlx.Named q src = (sqlx.toBindvars q, namedValues src q, none) := by
  simp only [sqlx.Named, hrec, namedArgs_eq src q h, if_true]

theorem any_isEmptySlice_namedValues (src : GoVal) (q : Query) :
    (namedValues src q).any GoVal.isEmptySlice = hasEmptySequence src q := by
  induction q with
  | nil => rfl
  | cons f rest ih =>
    cases f with
    | named name =>
      rcases hl : src.lookup name with _ | v
      · simp only [namedValues, hasEmptySequence, hl, ih, Bool.false_or]
      · simp only [namedValues, hasEmptySequence, hl, ih, List.any_cons]
    | text s => exact ih
    | bindvar => exact ih
    | numbered n => exact ih

theorem expandIn_toBindvars (src : GoVal) (q : Query)
    (htn : q.all Frag.isTextOrNamed = true) (h : namesSupplied src q = true) :
    sqlx.expandIn (sqlx.toBindvars q) (namedValues src q)
      = some (boundQuery src q, boundArgs src q) := by
  induction q with
  | nil => rfl
  | cons f rest ih =>
    simp only [List.all_cons, Bool.and_eq_true] at htn
    cases f with
    | named name =>
      simp only [namesSupplied, Bool.and_eq_true] at h
      rcases hl : src.lookup name with _ | v
      · rw [hl] at h; simp at h
      · simp only [sqlx.toBindvars, namedValues, boundQuery, boundArgs, hl, sqlx.expandIn,
          ih htn.2 h.2]
    | text s =>
      have h1 : namesSupplied src rest = true := by simpa [namesSupplied] using h
      simp only [sqlx.toBindvars, namedValues, boundQuery, boundArgs, sqlx.expandIn,
        ih htn.2 h1]
    | bindvar => simp [Frag.isTextOrNamed] at htn
    | numbered n => simp [Frag.isTextOrNamed] at htn


theorem In_eq (src : GoVal) (q : Query) (htn : q.all Frag.isTextOrNamed = true)
    (h : namesSupplied src q = true) (hne : hasEmptySequence src q = false) :
    sqlx.In (sqlx.toBindvars q) (namedValues src q) = (boundQuery src q, boundArgs src q, none) := by
  simp only [sqlx.In, any_isEmptySlice_namedValues, hne, expandIn_toBindvars src q htn h]
  rfl

theorem In_empty (src : GoVal) (q : Query) (he : hasEmptySequence src q = true) :
    sqlx.In (sqlx.toBindvars q) (namedValues src q)
      = ([], [], some (GoError.BindError "empty slice passed to in query")) := by
  simp only [sqlx.In, any_isEmptySlice_namedValues, he, if_true]

theorem isRecord_of_hasEmptySequence (src : GoVal) (q : Query)
    (he : hasEmptySequence src q = true) : src.isRecord = true := by
  induction q with
  | nil => simp [hasEmptySequence] at he
  | cons f rest ih =>
    cases f with
    | named name =>
      rcases hl : src.lookup name with _ | v
      · simp only [hasEmptySequence, hl, Bool.false_or] at he
        exact ih he
      · cases src <;> simp_all [GoVal.lookup, GoVal.isRecord]
    | text s => exact ih he
    | bindvar => exact ih he
    | numbered n => exact ih he

theorem orEmptyStruct_of_isRecord (src : GoVal) (hrec : src.isRecord = true) :
    orEmptyStruct src = src := by
  cases src <;> simp_all [GoVal.isRecord, orEmptyStruct, GoVal.isNil]

theorem positionalCount_bindvars (n : Nat) : positionalCount (sqlx.bindvars n) = n := by
  induction n using Nat.strongRecOn with
  | _ n ih =>
    match n with
    | 0 => rfl
    | 1 => rfl
    | k + 2 =>
      have := ih (k + 1) (by omega)
      simp only [positionalCount] at this ⊢
      simp [sqlx.bindvars, Frag.isPositional, this]

theorem positionalCount_append (p q : Query) :
    positionalCount (p ++ q) = positionalCount p + positionalCount q := by
  simp [positionalCount]

theorem positionalCount_numberFrom (i : Nat) (q : Query) :
    positionalCount (sqlx.numberFrom i q) = positionalCount q := by
  induction q generalizing i with
  | nil => rfl
  | cons f rest ih =>
    cases f <;>
      simp_all [sqlx.numberFrom, positionalCount, Frag.isPositional, List.countP_cons]

theorem positionalCount_Rebind (bt : BindType) (q : Query) :
    positionalCount (sqlx.Rebind bt q) = positionalCount q := by
  cases bt
  · rfl
  · exact positionalCount_numberFrom 0 q

theorem positionalCount_boundQuery (src : GoVal) (q : Query)
    (htn : q.all Frag.isTextOrNamed = true) (h : namesSupplied src q = true) :
    positionalCount (boundQuery src q) = (boundArgs src q).length := by
  induction q with
  | nil => rfl
  | cons f rest ih =>
    simp only [List.all_cons, Bool.and_eq_true] at htn
    cases f with
    | named name =>
      simp only [namesSupplied, Bool.and_eq_true] at h
      rcases hl : src.lookup name with _ | v
      · rw [hl] at h; simp at h
      · simp only [boundQuery, boundArgs, hl, positionalCount_append, positionalCount_bindvars,
          List.length_append, ih htn.2 h.2]
    | text s =>
      have h1 : namesSupplied src rest = true := by simpa [namesSupplied] using h
      have := ih htn.2 h1
      simp only [positionalCount] at this ⊢
      simp [boundQuery, boundArgs, Frag.isPositional, this]
    | bindvar => simp [Frag.isTextOrNamed] at htn
    | numbered n => simp [Frag.isTextOrNamed] at htn

theorem length_boundArgs (src : GoVal) (q : Query) :
    (boundArgs src q).length = scalarCount src q := by
  induction q with
  | nil => rfl
  | cons f rest ih =>
    cases f with
    | named name =>
      rcases hl : src.lookup name with _ | v
      · simp only [boundArgs, scalarCount, hl, ih, Nat.zero_add]
      · cases v <;> simp [boundArgs, scalarCount, hl, ih, GoVal.expand, Nat.add_comm]
    | text s => exact ih
    | bindvar => exact ih
    | numbered n => exact ih

/-- The binder over the library, on a query of text and named placeholders
whose names are all supplied and bound to no empty sequence. -/
theorem safeBindNamed_library (db : DB) (src : GoVal) (q : Query)
    (hrec : src.isRecord = true) (htn : q.all Frag.isTextOrNamed = true)
    (h : namesSupplied src q = true) (hne : hasEmptySequence src q = false) :
    safeBindNamed sqlx.library db q src =
      ((sqlx.Rebind db.bindType (boundQuery src q), boundArgs src q, none),
        [Call.Named q src, Call.In (sqlx.toBindvars q) (namedValues src q),
          Call.Rebind (boundQuery src q)]) := by
  have hN : sqlx.library.Named q (orEmptyStruct src)
      = (sqlx.toBindvars q, namedValues src q, none) := by
    rw [orEmptyStruct_of_isRecord src hrec]
    exact Named_eq src q hrec h
  have hI : sqlx.library.In (sqlx.toBindvars q) (namedValues src q)
      = (boundQuery src q, boundArgs src q, none) := In_eq src q htn h hne
  rcases safeBindNamed_cases sqlx.library db q src with
    ⟨e1, h1, _⟩ | ⟨q1, a1, e1, h1, h2, _⟩ | ⟨q1, a1, q2, a2, h1, h2, hs⟩
  · rw [hN] at h1
    exact absurd h1 (by simp)
  · rw [hN] at h1
    cases h1
    rw [hI] at h2
    exact absurd h2 (by simp)
  · rw [hN] at h1
    cases h1
    rw [hI] at h2
    cases h2
    rw [orEmptyStruct_of_isRecord src hrec] at hs
    exact hs

theorem safeBindNamed_In_fails {DB : Type} (L : Sqlx DB) (db : DB) (query : Query)
    (inParams : GoVal) (q1 q2 : Query) (a1 a2 : List GoVal) (e : GoError)
    (hNamed : L.Named query (orEmptyStruct inParams) = (q1, a1, none))
    (hIn : L.In q1 a1 = (q2, a2, some e)) :
    safeBindNamed L db query inParams =
      (([], [], some e), [Call.Named query (orEmptyStruct inParams), Call.In q1 a1]) := by
  rcases safeBindNamed_cases L db query inParams with
    ⟨e1, h1, _⟩ | ⟨q1', a1', e1, h1, h2, h⟩ | ⟨q1', a1', q2', a2', h1, h2, _⟩
  · rw [hNamed] at h1
    exact absurd h1 (by simp)
  · rw [hNamed] at h1
    cases h1
    rw [hIn] at h2
    cases h2
    exact h
  · rw [hNamed] at h1
    cases h1
    rw [hIn] at h2
    cases h2

theorem namesSupplied_append (src : GoVal) (p q : Query) :
    namesSupplied src (p ++ q) = (namesSupplied src p && namesSupplied src q) := by
  induction p with
  | nil => rfl
  | cons f rest ih => cases f <;> simp [namesSupplied, ih, Bool.and_assoc]

theorem hasEmptySequence_append (src : GoVal) (p q : Query) :
    hasEmptySequence src (p ++ q) = (hasEmptySequence src p || hasEmptySequence src q) := by
  induction p with
  | nil => rfl
  | cons f rest ih => cases f <;> simp [hasEmptySequence, ih, Bool.or_assoc]

theorem boundQuery_append (src : GoVal) (p q : Query) :
    boundQuery src (p ++ q) = boundQuery src p ++ boundQuery src q := by
  induction p with
  | nil => rfl
  | cons f rest ih =>
    cases f with
    | named name =>
      rcases hl : src.lookup name with _ | v <;> simp [boundQuery, hl, ih]
    | text s => simp [boundQuery, ih]
    | bindvar => simp [boundQuery, ih]
    | numbered n => simp [boundQuery, ih]

theorem boundArgs_append (src : GoVal) (p q : Query) :
    boundArgs src (p ++ q) = boundArgs src p ++ boundArgs src q := by
  induction p with
  | nil => rfl
  | cons f rest ih =>
    cases f with
    | named name =>
      rcases hl : src.lookup name with _ | v <;> simp [boundArgs, hl, ih]
    | text s => simp [boundArgs, ih]
    | bindvar => simp [boundArgs, ih]
    | numbered n => simp [boundArgs, ih]

theorem isRecord_of_lookup (src : GoVal) (name : String) (v : GoVal)
    (h : src.lookup name = some v) : src.isRecord = true := by
  cases src <;> simp_all [GoVal.lookup, GoVal.isRecord]

/-- C6: for every query that contains `WHERE id IN (:ids)` (its other
placeholders named, supplied and bound to no empty sequence) and every
parameter source that binds `ids` to a sequence of n >= 1 elements, the binder
succeeds; in the returned query the placeholder `:ids` has become n positional
placeholders, which the driver rewriting keeps; and the returned arguments are
those of the part before, then the n elements in their order, then those of the
part after. -/
theorem in_clause_expands (db : DB) (src : GoVal) (pre post : Query) (kind : ElemKind)
    (xs : List GoVal)
    (hpre : pre.all Frag.isTextOrNamed = true ∧ namesSupplied src pre = true ∧
      hasEmptySequence src pre = false)
    (hpost : post.all Frag.isTextOrNamed = true ∧ namesSupplied src post = true ∧
      hasEmptySequence src post = false)
    (hids : src.lookup "ids" = some (GoVal.slice kind xs)) (hxs : xs ≠ []) :
    (safeBindNamed sqlx.library db
        (pre ++ [Frag.text "WHERE id IN (", Frag.named "ids", Frag.text ")"] ++ post) src).1
      = (sqlx.Rebind db.bindType
          (boundQuery src pre ++ [Frag.text "WHERE id IN ("] ++ sqlx.bindvars xs.length
            ++ [Frag.text ")"] ++ boundQuery src post),
         boundArgs src pre ++ xs ++ boundArgs src post, none) ∧
    positionalCount (sqlx.bindvars xs.length) = xs.length ∧
    positionalCount (safeBindNamed sqlx.library db
        (pre ++ [Frag.text "WHERE id IN (", Frag.named "ids", Frag.text ")"] ++ post) src).1.1
      = (boundArgs src pre).length + xs.length + (boundArgs src post).length := by
  have hrec := isRecord_of_lookup src "ids" _ hids
  have hx : (GoVal.slice kind xs).isEmptySlice = false := by
    cases xs with
    | nil => exact absurd rfl hxs
    | cons a as => rfl
  have hmid1 : namesSupplied src [Frag.text "WHERE id IN (", Frag.named "ids", Frag.text ")"]
      = true := by simp [namesSupplied, hids]
  have hmid2 : hasEmptySequence src [Frag.text "WHERE id IN (", Frag.named "ids", Frag.text ")"]
      = false := by simp [hasEmptySequence, hids, hx]
  have hmidq : boundQuery src [Frag.text "WHERE id IN (", Frag.named "ids", Frag.text ")"]
      = [Frag.text "WHERE id IN ("] ++ sqlx.bindvars xs.length ++ [Frag.text ")"] := by
    simp [boundQuery, hids, GoVal.expand]
  have hmida : boundArgs src [Frag.text "WHERE id IN (", Frag.named "ids", Frag.text ")"]
      = xs := by simp [boundArgs, hids, GoVal.expand]
  have hlib := safeBindNamed_library db src
    (pre ++ [Frag.text "WHERE id IN (", Frag.named "ids", Frag.text ")"] ++ post) hrec
    (by simp [List.all_append, hpre.1, hpost.1, Frag.isTextOrNamed])
    (by rw [namesSupplied_append, namesSupplied_append, hpre.2.1, hmid1, hpost.2.1]; rfl)
    (by rw [hasEmptySequence_append, hasEmptySequence_append, hpre.2.2, hmid2, hpost.2.2]; rfl)
  rw [boundQuery_append, boundQuery_append, boundArgs_append, boundArgs_append, hmidq, hmida]
    at hlib
  rw [hlib]
  refine ⟨by simp only [List.append_assoc], positionalCount_bindvars _, ?_⟩
  simp only [positionalCount_Rebind, positionalCount_append, positionalCount_bindvars,
    positionalCount_boundQuery src pre hpre.1 hpre.2.1,
    positionalCount_boundQuery src post hpost.1 hpost.2.1]
  simp [positionalCount, Frag.isPositional]

/-- The sample query, `ids` bound to `[4, 5, 6]`, on a `$n` driver: three
placeholders `$1, $2, $3` and the arguments `4, 5, 6`. -/
theorem in_clause_expands_witness :
    (safeBindNamed sqlx.library (sampleDB twoRows)
        ([Frag.text "SELECT name FROM users "]
          ++ [Frag.text "WHERE id IN (", Frag.named "ids", Frag.text ")"] ++ []) sampleParams).1
      = ([Frag.text "SELECT name FROM users ", Frag.text "WHERE id IN (", Frag.numbered 1,
          Frag.text ", ", Frag.numbered 2, Frag.text ", ", Frag.numbered 3, Frag.text ")"],
         [GoVal.int 4, GoVal.int 5, GoVal.int 6], none) :=
  (in_clause_expands (sampleDB twoRows) sampleParams [Frag.text "SELECT name FROM users "] []
    ElemKind.scalar [GoVal.int 4, GoVal.int 5, GoVal.int 6] ⟨rfl, rfl, rfl⟩ ⟨rfl, rfl, rfl⟩ rfl
    (by simp)).1

/-- C7, with empty sequences excluded: for every query of text and named placeholders and
every mapping or struct that supplies a value for each of them and binds none
to an empty sequence, the binder succeeds, the length of the returned argument
list is the number of scalar values after list expansion, and so is the number
of positional placeholders of the returned query. -/
theorem bound_argument_count (db : DB) (src : GoVal) (q : Query)
    (hrec : src.isRecord = true) (htn : q.all Frag.isTextOrNamed = true)
    (h : namesSupplied src q = true) (hne : hasEmptySequence src q = false) :
    (safeBindNamed sqlx.library db q src).1.2.2 = none ∧
    (safeBindNamed sqlx.library db q src).1.2.1.length = scalarCount src q ∧
    positionalCount (safeBindNamed sqlx.library db q src).1.1 = scalarCount src q := by
  rw [safeBindNamed_library db src q hrec htn h hne]
  refine ⟨rfl, length_boundArgs src q, ?_⟩
  simp only [positionalCount_Rebind, positionalCount_boundQuery src q htn h,
    length_boundArgs]

/-- The sample `UPDATE`: two scalar values, two arguments, two placeholders. -/
theorem bound_argument_count_witness :
    scalarCount updateParams sampleUpdate = 2 ∧
    (safeBindNamed sqlx.library (sampleDB noRows) sampleUpdate updateParams).1.2.1.length
      = scalarCount updateParams sampleUpdate :=
  ⟨rfl, (bound_argument_count (sampleDB noRows) updateParams sampleUpdate rfl rfl rfl rfl).2.1⟩

/-- The sample query has one named placeholder, the parameter source is a
mapping that supplies a value for it, an empty sequence, and the binder
fails. -/
theorem empty_sequence_fails_binding :
    emptyIdsParams.isRecord = true ∧ sampleQuery.all Frag.isTextOrNamed = true ∧
    namesSupplied emptyIdsParams sampleQuery = true ∧
    (safeBindNamed sqlx.library (sampleDB twoRows) sampleQuery emptyIdsParams).1
      = ([], [], some (GoError.BindError "empty slice passed to in query")) :=
  ⟨rfl, rfl, rfl, rfl⟩

/-- C10: for every query whose named placeholders are all supplied and one of
which is bound to a sequence without elements, `sqlx.Named` succeeds, `sqlx.In`
fails with the empty-sequence bind error, `safeBindNamed` returns that error
after the calls `Named`, `In`, and the three public operations return it,
leave the handle and the destination as they were and execute nothing. -/
theorem empty_sequence_bind_error (ctx : Context) (db : DB) (dest : GoVal) (src : GoVal)
    (q : Query) (h : namesSupplied src q = true) (he : hasEmptySequence src q = true) :
    sqlx.Named q src = (sqlx.toBindvars q, namedValues src q, none) ∧
    sqlx.In (sqlx.toBindvars q) (namedValues src q)
      = ([], [], some (GoError.BindError "empty slice passed to in query")) ∧
    safeBindNamed sqlx.library db q src
      = (([], [], some (GoError.BindError "empty slice passed to in query")),
          [Call.Named q src, Call.In (sqlx.toBindvars q) (namedValues src q)]) ∧
    (∀ r ∈ [NamedGetContext sqlx.library ctx db dest q src,
        NamedSelectContext sqlx.library ctx db dest q src,
        ExecSQLForRows sqlx.library ctx db dest q src],
      r.err = some (GoError.BindError "empty slice passed to in query") ∧ r.db = db ∧
        r.dest = dest ∧ ∀ c ∈ r.calls, c.isRebind = false ∧ c.executes = false) := by
  have hrec := isRecord_of_hasEmptySequence src q he
  have hN := Named_eq src q hrec h
  have hI := In_empty src q he
  have hs := safeBindNamed_In_fails sqlx.library db q src _ _ _ _ _
    (by rw [orEmptyStruct_of_isRecord src hrec]; exact hN) hI
  rw [orEmptyStruct_of_isRecord src hrec] at hs
  have hres : (safeBindNamed sqlx.library db q src).1
      = ([], [], some (GoError.BindError "empty slice passed to in query")) := by rw [hs]
  obtain ⟨hget, hsel, hexec⟩ := ops_of_bind_error sqlx.library ctx db dest q src _ hres
  have hcalls : ∀ c ∈ (safeBindNamed sqlx.library db q src).2,
      c.isRebind = false ∧ c.executes = false := by
    rw [hs]
    simp [Call.isRebind, Call.executes]
  refine ⟨hN, hI, hs, ?_⟩
  intro r hr
  simp only [List.mem_cons, List.mem_singleton, List.not_mem_nil, or_false] at hr
  rcases hr with hr | hr | hr
  · rw [hr, hget]; exact ⟨rfl, rfl, rfl, hcalls⟩
  · rw [hr, hsel]; exact ⟨rfl, rfl, rfl, hcalls⟩
  · rw [hr, hexec]; exact ⟨rfl, rfl, rfl, hcalls⟩

/-- The sample query with `ids` bound to an empty sequence: nothing is
executed on the handle. -/
theorem empty_sequence_bind_error_witness :
    hasEmptySequence emptyIdsParams sampleQuery = true ∧
    (NamedGetContext sqlx.library liveContext (sampleDB twoRows) (GoVal.ptr (GoVal.str ""))
        sampleQuery emptyIdsParams).err
      = some (GoError.BindError "empty slice passed to in query") ∧
    (NamedGetContext sqlx.library liveContext (sampleDB twoRows) (GoVal.ptr (GoVal.str ""))
        sampleQuery emptyIdsParams).db.executed = [] :=
  ⟨rfl,
    ((empty_sequence_bind_error liveContext (sampleDB twoRows) (GoVal.ptr (GoVal.str ""))
      emptyIdsParams sampleQuery rfl rfl).2.2.2 _ (List.mem_cons_self _ _)).1,
    rfl⟩

/-! ## Row counts and result shapes -/

/-- `NamedGetContext` over the library, once the query is bound. -/
theorem NamedGetContext_bound {DB : Type} (L : Sqlx DB) (ctx : Context) (db : DB)
    (dest : GoVal) (query : Query) (inParams : GoVal) (q : Query) (args : List GoVal)
    (calls : List Call) (hbind : safeBindNamed L db query inParams = ((q, args, none), calls)) :
    NamedGetContext L ctx db dest query inParams
      = ⟨(L.GetContext ctx db dest q args).err, (L.GetContext ctx db dest q args).db,
          (L.GetContext ctx db dest q args).dest, calls ++ [Call.GetContext dest q args]⟩ := by
  unfold NamedGetContext
  rw [hbind]

/-- The sample query matches two rows and `NamedGetContext` returns nil, with
the first row in the destination: no row-count error. -/
theorem NamedGetContext_two_rows_no_error :
    (safeBindNamed sqlx.library (sampleDB twoRows) sampleQuery sampleParams).1.2.2 = none ∧
    twoRows.rows.length = 2 ∧
    (NamedGetContext sqlx.library liveContext (sampleDB twoRows) (GoVal.ptr (GoVal.str ""))
        sampleQuery sampleParams).err = none ∧
    (NamedGetContext sqlx.library liveContext (sampleDB twoRows) (GoVal.ptr (GoVal.str ""))
        sampleQuery sampleParams).dest = GoVal.ptr (GoVal.str "ann") :=
  ⟨rfl, rfl, rfl, rfl⟩

/-- C8, without a row-count error: for every successfully bound query that the
database answers without error under a live context, and every pointer
destination whose shape fits the result columns, `NamedGetContext` executes the
bound query once and returns `NoRowsError`, the destination untouched, when
the query matches zero rows; when it matches one or more rows it scans the
first row into the destination, returns the error of that scan (nil when the
scan succeeds) and discards every further row. -/
theorem NamedGetContext_rows (ctx : Context) (db : DB) (v : GoVal) (query : Query)
    (inParams : GoVal) (q : Query) (args : List GoVal) (calls : List Call) (rs : ResultSet)
    (hctx : ctx.err = none)
    (hbind : safeBindNamed sqlx.library db query inParams = ((q, args, none), calls))
    (hrun : db.run q args = Except.ok rs)
    (hshape : shapeError v.kind rs.columns = none) :
    (NamedGetContext sqlx.library ctx db (GoVal.ptr v) query inParams).db.executed
      = db.executed ++ [(q, args)] ∧
    (rs.rows = [] →
      (NamedGetContext sqlx.library ctx db (GoVal.ptr v) query inParams).err
        = some GoError.NoRowsError ∧
      (NamedGetContext sqlx.library ctx db (GoVal.ptr v) query inParams).dest = GoVal.ptr v) ∧
    (∀ row rest, rs.rows = row :: rest →
      (NamedGetContext sqlx.library ctx db (GoVal.ptr v) query inParams).err
        = (db.scan v rs.columns row).2 ∧
      (NamedGetContext sqlx.library ctx db (GoVal.ptr v) query inParams).dest
        = GoVal.ptr (db.scan v rs.columns row).1) := by
  rw [NamedGetContext_bound sqlx.library ctx db (GoVal.ptr v) query inParams q args calls hbind]
  have hG : sqlx.library.GetContext ctx db (GoVal.ptr v) q args
      = sqlx.GetContext ctx db (GoVal.ptr v) q args := rfl
  simp only [hG]
  rcases rs with ⟨columns, rows⟩
  simp only [] at hshape
  cases rows with
  | nil =>
    simp [sqlx.GetContext, hctx, hrun, hshape]
  | cons row rest =>
    simp [sqlx.GetContext, hctx, hrun, hshape]

/-- The sample query on a database that returns no row, and on one that returns
two. -/
theorem NamedGetContext_rows_witness :
    (NamedGetContext sqlx.library liveContext (sampleDB ⟨["name"], []⟩)
        (GoVal.ptr (GoVal.str "")) sampleQuery sampleParams).err
      = some GoError.NoRowsError ∧
    (NamedGetContext sqlx.library liveContext (sampleDB twoRows)
        (GoVal.ptr (GoVal.str "")) sampleQuery sampleParams).err = none ∧
    (NamedGetContext sqlx.library liveContext (sampleDB twoRows)
        (GoVal.ptr (GoVal.str "")) sampleQuery sampleParams).dest
      = GoVal.ptr (GoVal.str "ann") :=
  ⟨((NamedGetContext_rows liveContext (sampleDB ⟨["name"], []⟩) (GoVal.str "") sampleQuery
      sampleParams _ _ _ ⟨["name"], []⟩ rfl rfl rfl rfl).2.1 rfl).1,
   (NamedGetContext_rows liveContext (sampleDB twoRows) (GoVal.str "") sampleQuery
      sampleParams _ _ _ twoRows rfl rfl rfl rfl).2.2 _ _ rfl⟩

/-- C3: the two-column sample query is bound, its execution succeeds and
returns no rows, `sqlx.SelectContext` receives the throwaway destination and
not nil, and `NamedSelectContext` with a nil destination returns a scan error;
the sample `UPDATE`, whose result has no column, returns nil. -/
theorem nil_dest_no_rows_scan_error :
    (safeBindNamed sqlx.library (sampleDB noRowsTwoColumns) sampleQueryTwo sampleParams).1.2.2
      = none ∧
    (sampleDB noRowsTwoColumns).run
        [Frag.text "SELECT id, name FROM users WHERE id IN (", Frag.numbered 1,
          Frag.text ", ", Frag.numbered 2, Frag.text ", ", Frag.numbered 3, Frag.text ")"]
        [GoVal.int 4, GoVal.int 5, GoVal.int 6] = Except.ok noRowsTwoColumns ∧
    noRowsTwoColumns.rows = [] ∧
    (NamedSelectContext sqlx.library liveContext (sampleDB noRowsTwoColumns) GoVal.nil
        sampleQueryTwo sampleParams).calls.getLast?
      = some (Call.SelectContext throwaway
          [Frag.text "SELECT id, name FROM users WHERE id IN (", Frag.numbered 1,
            Frag.text ", ", Frag.numbered 2, Frag.text ", ", Frag.numbered 3, Frag.text ")"]
          [GoVal.int 4, GoVal.int 5, GoVal.int 6]) ∧
    (NamedSelectContext sqlx.library liveContext (sampleDB noRowsTwoColumns) GoVal.nil
        sampleQueryTwo sampleParams).err
      = some (GoError.ScanError "non-struct dest type with >1 columns") ∧
    (NamedSelectContext sqlx.library liveContext (sampleDB noRows) GoVal.nil sampleUpdate
        updateParams).err = none :=
  ⟨rfl, rfl, rfl, rfl, rfl, rfl⟩

/-- C9: the two-column sample query is bound and executed without error, its
result has two columns, and `NamedSelectContext` and `ExecSQLForRows` with a
nil destination return a scan error after the statement was executed: the
throwaway `[]interface{}` takes one column at most. -/
theorem nil_dest_two_columns_scan_error :
    (safeBindNamed sqlx.library (sampleDB twoColumns) sampleQueryTwo sampleParams).1.2.2 = none ∧
    twoColumns.columns.length = 2 ∧
    (NamedSelectContext sqlx.library liveContext (sampleDB twoColumns) GoVal.nil sampleQueryTwo
        sampleParams).err = some (GoError.ScanError "non-struct dest type with >1 columns") ∧
    (ExecSQLForRows sqlx.library liveContext (sampleDB twoColumns) GoVal.nil sampleQueryTwo
        sampleParams).err = some (GoError.ScanError "non-struct dest type with >1 columns") ∧
    (NamedSelectContext sqlx.library liveContext (sampleDB twoColumns) GoVal.nil sampleQueryTwo
        sampleParams).db.executed
      = [([Frag.text "SELECT id, name FROM users WHERE id IN (", Frag.numbered 1,
            Frag.text ", ", Frag.numbered 2, Frag.text ", ", Frag.numbered 3, Frag.text ")"],
          [GoVal.int 4, GoVal.int 5, GoVal.int 6])] :=
  ⟨rfl, rfl, rfl, rfl, rfl⟩


end Sqlxext
